import Mathlib

/-!
Shallow embedding of the `lsm303dlhc` driver crate (src/lib.rs, src/accel.rs,
src/mag.rs).

The I2C bus (the `embedded-hal` `Write` + `WriteRead` collaborator) is
modelled as an oracle `Bus ε` mapping each request to a response.  Every
driver operation returns the value the Rust function returns (with `u8`
modelled as `Nat`, `i16` as `Int` via `toI16`, and `Result<T, E>` as
`Except ε`) together with the list of bus transactions it issued, in order.
-/

set_option maxRecDepth 10000

deriving instance DecidableEq for Except

namespace Lsm303dlhc

/-! ### Register maps (src/accel.rs, src/mag.rs) -/

namespace accel

/-- `pub const ADDRESS: u8 = 0b0011001;` (src/accel.rs). -/
def ADDRESS : Nat := 0b0011001

/-- The accelerometer register map enum of src/accel.rs, one constructor per
source variant, in source order. -/
inductive Register where
  | CTRL_REG1_A
  | CTRL_REG2_A
  | CTRL_REG3_A
  | CTRL_REG4_A
  | CTRL_REG5_A
  | CTRL_REG6_A
  | REFERENCE_A
  | STATUS_REG_A
  | OUT_X_L_A
  | OUT_X_H_A
  | OUT_Y_L_A
  | OUT_Y_H_A
  | OUT_Z_L_A
  | OUT_Z_H_A
  | FIFO_CTRL_REG_A
  | FIFO_SRC_REG_A
  | INT1_CFG_A
  | INT1_SRC_A
  | INT1_THS_A
  | INT1_DURATION_A
  | INT2_CFG_A
  | INT2_SRC_A
  | INT2_THS_A
  | INT2_DURATION_A
  | CLICK_CFG_A
  | CLICK_SRC_A
  | CLICK_THS_A
  | TIME_LIMIT_A
  | TIME_LATENCY_A
  | TIME_WINDOW_A
  deriving DecidableEq, Fintype

/-- `Register::addr` (src/accel.rs): the discriminant of each variant. -/
def Register.addr : Register → Nat
  | .CTRL_REG1_A => 0x20
  | .CTRL_REG2_A => 0x21
  | .CTRL_REG3_A => 0x22
  | .CTRL_REG4_A => 0x23
  | .CTRL_REG5_A => 0x24
  | .CTRL_REG6_A => 0x25
  | .REFERENCE_A => 0x26
  | .STATUS_REG_A => 0x27
  | .OUT_X_L_A => 0x28
  | .OUT_X_H_A => 0x29
  | .OUT_Y_L_A => 0x2A
  | .OUT_Y_H_A => 0x2B
  | .OUT_Z_L_A => 0x2C
  | .OUT_Z_H_A => 0x2D
  | .FIFO_CTRL_REG_A => 0x2E
  | .FIFO_SRC_REG_A => 0x2F
  | .INT1_CFG_A => 0x30
  | .INT1_SRC_A => 0x31
  | .INT1_THS_A => 0x32
  | .INT1_DURATION_A => 0x33
  | .INT2_CFG_A => 0x34
  | .INT2_SRC_A => 0x35
  | .INT2_THS_A => 0x36
  | .INT2_DURATION_A => 0x37
  | .CLICK_CFG_A => 0x38
  | .CLICK_SRC_A => 0x39
  | .CLICK_THS_A => 0x3A
  | .TIME_LIMIT_A => 0x3B
  | .TIME_LATENCY_A => 0x3C
  | .TIME_WINDOW_A => 0x3D

end accel

namespace mag

/-- `pub const ADDRESS: u8 = 0b0011110;` (src/mag.rs). -/
def ADDRESS : Nat := 0b0011110

/-- The magnetometer register map enum of src/mag.rs, in source order. -/
inductive Register where
  | CRA_REG_M
  | CRB_REG_M
  | MR_REG_M
  | OUT_X_H_M
  | OUT_X_L_M
  | OUT_Z_H_M
  | OUT_Z_L_M
  | OUT_Y_H_M
  | OUT_Y_L_M
  | SR_REG_M
  | IRA_REG_M
  | IRB_REG_M
  | IRC_REG_M
  | TEMP_OUT_H_M
  | TEMP_OUT_L_M
  deriving DecidableEq, Fintype

/-- `Register::addr` (src/mag.rs): the discriminant of each variant. -/
def Register.addr : Register → Nat
  | .CRA_REG_M => 0x00
  | .CRB_REG_M => 0x01
  | .MR_REG_M => 0x02
  | .OUT_X_H_M => 0x03
  | .OUT_X_L_M => 0x04
  | .OUT_Z_H_M => 0x05
  | .OUT_Z_L_M => 0x06
  | .OUT_Y_H_M => 0x07
  | .OUT_Y_L_M => 0x08
  | .SR_REG_M => 0x09
  | .IRA_REG_M => 0x0A
  | .IRB_REG_M => 0x0B
  | .IRC_REG_M => 0x0C
  | .TEMP_OUT_H_M => 0x31
  | .TEMP_OUT_L_M => 0x32

end mag

/-! ### Bus model -/

/-- One I2C transaction as issued by the driver on the wire:
either a combined write-then-read (`WriteRead::write_read`) carrying the
device address, the bytes written (for this driver always a single register
address byte), and the number of bytes to read; or a plain write
(`Write::write`) carrying the device address and the bytes written. -/
inductive Tx where
  | writeRead (devAddr : Nat) (sent : List Nat) (nread : Nat)
  | write (devAddr : Nat) (sent : List Nat)
  deriving DecidableEq

/-- Device address of a transaction. -/
def Tx.dev : Tx → Nat
  | .writeRead a _ _ => a
  | .write a _ => a

/-- The external I2C collaborator (`embedded-hal` blocking `WriteRead` +
`Write`), as a stateless oracle: `write_read a sent n` yields the `n` bytes
read back (or a transport error `ε`), `write a sent` acknowledges a write
(or fails). -/
structure Bus (ε : Type) where
  write_read : Nat → List Nat → Nat → Except ε (List Nat)
  write : Nat → List Nat → Except ε Unit

/-! ### Register access engine (private methods of `Lsm303dlhc<I2C>`) -/

/-- `const MULTI: u8 = 1 << 7;` in `read_accel_registers`. -/
def MULTI : Nat := 1 <<< 7

/-- `read_accel_registers::<N>`: one `write_read` to `accel::ADDRESS`
sending `[reg.addr() | MULTI]` and reading `n` bytes.  Returns the bytes
and the singleton transaction trace. -/
def read_accel_registers {ε : Type} (bus : Bus ε) (n : Nat) (reg : accel.Register) :
    Except ε (List Nat) × List Tx :=
  (bus.write_read accel.ADDRESS [reg.addr ||| MULTI] n,
   [Tx.writeRead accel.ADDRESS [reg.addr ||| MULTI] n])

/-- `read_accel_register`: `read_accel_registers::<U1>(reg).map(|b| b[0])`. -/
def read_accel_register {ε : Type} (bus : Bus ε) (reg : accel.Register) :
    Except ε Nat × List Tx :=
  let p := read_accel_registers bus 1 reg
  (p.1.map (fun b => b.getD 0 0), p.2)

/-- `read_mag_registers::<N>`: one `write_read` to `mag::ADDRESS` sending
`[reg.addr()]` (no modification of the address byte) and reading `n`
bytes. -/
def read_mag_registers {ε : Type} (bus : Bus ε) (n : Nat) (reg : mag.Register) :
    Except ε (List Nat) × List Tx :=
  (bus.write_read mag.ADDRESS [reg.addr] n,
   [Tx.writeRead mag.ADDRESS [reg.addr] n])

/-- `read_mag_register`: a 1-byte `read_mag_registers`, returning byte 0. -/
def read_mag_register {ε : Type} (bus : Bus ε) (reg : mag.Register) :
    Except ε Nat × List Tx :=
  let p := read_mag_registers bus 1 reg
  (p.1.map (fun b => b.getD 0 0), p.2)

/-- `write_accel_register`: `self.i2c.write(accel::ADDRESS, &[reg.addr(), byte])`. -/
def write_accel_register {ε : Type} (bus : Bus ε) (reg : accel.Register) (byte : Nat) :
    Except ε Unit × List Tx :=
  (bus.write accel.ADDRESS [reg.addr, byte],
   [Tx.write accel.ADDRESS [reg.addr, byte]])

/-- `write_mag_register`: `self.i2c.write(mag::ADDRESS, &[reg.addr(), byte])`. -/
def write_mag_register {ε : Type} (bus : Bus ε) (reg : mag.Register) (byte : Nat) :
    Except ε Unit × List Tx :=
  (bus.write mag.ADDRESS [reg.addr, byte],
   [Tx.write mag.ADDRESS [reg.addr, byte]])

/-- `modify_accel_register`: read the register, then (only if the read
succeeded) write `f` of the value back; the first error short-circuits. -/
def modify_accel_register {ε : Type} (bus : Bus ε) (reg : accel.Register)
    (f : Nat → Nat) : Except ε Unit × List Tx :=
  match read_accel_register bus reg with
  | (.ok r, t1) =>
      let p := write_accel_register bus reg (f r)
      (p.1, t1 ++ p.2)
  | (.error e, t1) => (.error e, t1)

/-- `modify_mag_register`: as `modify_accel_register`, on the magnetometer. -/
def modify_mag_register {ε : Type} (bus : Bus ε) (reg : mag.Register)
    (f : Nat → Nat) : Except ε Unit × List Tx :=
  match read_mag_register bus reg with
  | (.ok r, t1) =>
      let p := write_mag_register bus reg (f r)
      (p.1, t1 ++ p.2)
  | (.error e, t1) => (.error e, t1)

/-! ### Typed values -/

/-- Reinterpret a (mod 2^16) natural as a two's-complement signed 16-bit
integer: the `as i16` cast of the Rust code. -/
def toI16 (n : Nat) : Int :=
  if n % 65536 < 32768 then ((n % 65536 : Nat) : Int)
  else ((n % 65536 : Nat) : Int) - 65536

/-- `I16x3` (src/lib.rs): an XYZ triple of signed 16-bit values. -/
structure I16x3 where
  x : Int
  y : Int
  z : Int
  deriving DecidableEq

/-- `AccelOdr` (src/lib.rs). -/
inductive AccelOdr where
  | Hz1
  | Hz10
  | Hz25
  | Hz50
  | Hz100
  | Hz200
  | Hz400
  deriving DecidableEq, Fintype

/-- The explicit discriminant of each `AccelOdr` variant (`odr as u8`). -/
def AccelOdr.code : AccelOdr → Nat
  | .Hz1 => 0b0001
  | .Hz10 => 0b0010
  | .Hz25 => 0b0011
  | .Hz50 => 0b0100
  | .Hz100 => 0b0101
  | .Hz200 => 0b0110
  | .Hz400 => 0b0111

/-- `MagOdr` (src/lib.rs). -/
inductive MagOdr where
  | Hz0_75
  | Hz1_5
  | Hz3
  | Hz7_5
  | Hz15
  | Hz30
  | Hz75
  | Hz220
  deriving DecidableEq, Fintype

/-- The explicit discriminant of each `MagOdr` variant (`odr as u8`). -/
def MagOdr.code : MagOdr → Nat
  | .Hz0_75 => 0b000
  | .Hz1_5 => 0b001
  | .Hz3 => 0b010
  | .Hz7_5 => 0b011
  | .Hz15 => 0b100
  | .Hz30 => 0b101
  | .Hz75 => 0b110
  | .Hz220 => 0b111

/-- `Sensitivity` (src/lib.rs). -/
inductive Sensitivity where
  | G1
  | G2
  | G4
  | G12
  deriving DecidableEq, Fintype

/-- `Sensitivity::value`: `*self as u8`, the implicit discriminant 0..3. -/
def Sensitivity.value : Sensitivity → Nat
  | .G1 => 0
  | .G2 => 1
  | .G4 => 2
  | .G12 => 3

/-! ### Driver facade (public methods of `Lsm303dlhc<I2C>`) -/

/-- `Lsm303dlhc::new`: three register writes in order, each one
short-circuiting on error via `?`; returns the driver (here `Unit`, the
driver holds no state besides the bus handle) only if all three succeed. -/
def new {ε : Type} (bus : Bus ε) : Except ε Unit × List Tx :=
  match write_accel_register bus .CTRL_REG1_A 0b01110111 with
  | (.error e, t1) => (.error e, t1)
  | (.ok _, t1) =>
      match write_mag_register bus .MR_REG_M 0b00 with
      | (.error e, t2) => (.error e, t1 ++ t2)
      | (.ok _, t2) =>
          match write_mag_register bus .CRA_REG_M (0b0001000 ||| (1 <<< 7)) with
          | (.error e, t3) => (.error e, t1 ++ t2 ++ t3)
          | (.ok _, t3) => (.ok (), t1 ++ t2 ++ t3)

/-- `Lsm303dlhc::accel`: burst-read 6 bytes from `OUT_X_L_A`, assemble each
axis as `low + (high << 8)` reinterpreted as `i16`. -/
def accel {ε : Type} (bus : Bus ε) : Except ε I16x3 × List Tx :=
  match read_accel_registers bus 6 .OUT_X_L_A with
  | (.error e, t) => (.error e, t)
  | (.ok buffer, t) =>
      (.ok { x := toI16 (buffer.getD 0 0 + (buffer.getD 1 0 <<< 8))
             y := toI16 (buffer.getD 2 0 + (buffer.getD 3 0 <<< 8))
             z := toI16 (buffer.getD 4 0 + (buffer.getD 5 0 <<< 8)) }, t)

/-- `Lsm303dlhc::mag`: burst-read 6 bytes from `OUT_X_H_M`; the chip orders
the bytes `X_H, X_L, Z_H, Z_L, Y_H, Y_L`, so x comes from bytes 1,0,
z from bytes 3,2 and y from bytes 5,4. -/
def mag {ε : Type} (bus : Bus ε) : Except ε I16x3 × List Tx :=
  match read_mag_registers bus 6 .OUT_X_H_M with
  | (.error e, t) => (.error e, t)
  | (.ok buffer, t) =>
      (.ok { x := toI16 (buffer.getD 1 0 + (buffer.getD 0 0 <<< 8))
             y := toI16 (buffer.getD 5 0 + (buffer.getD 4 0 <<< 8))
             z := toI16 (buffer.getD 3 0 + (buffer.getD 2 0 <<< 8)) }, t)

/-- The closure of `accel_odr`: `r & !(0b1111 << 4) | ((odr as u8) << 4)`
with `!` the `u8` bitwise complement. -/
def accelOdrUpdate (odr : AccelOdr) (r : Nat) : Nat :=
  r &&& (255 ^^^ (0b1111 <<< 4)) ||| (odr.code <<< 4)

/-- `Lsm303dlhc::accel_odr`: read-modify-write of `CTRL_REG1_A`. -/
def accel_odr {ε : Type} (bus : Bus ε) (odr : AccelOdr) : Except ε Unit × List Tx :=
  modify_accel_register bus .CTRL_REG1_A (accelOdrUpdate odr)

/-- The closure of `mag_odr`: `r & !(0b111 << 2) | ((odr as u8) << 2)`. -/
def magOdrUpdate (odr : MagOdr) (r : Nat) : Nat :=
  r &&& (255 ^^^ (0b111 <<< 2)) ||| (odr.code <<< 2)

/-- `Lsm303dlhc::mag_odr`: read-modify-write of `CRA_REG_M`. -/
def mag_odr {ε : Type} (bus : Bus ε) (odr : MagOdr) : Except ε Unit × List Tx :=
  modify_mag_register bus .CRA_REG_M (magOdrUpdate odr)

/-- The closure of `set_accel_sensitivity`:
`r & !(0b11 << 4) | (sensitivity.value() << 4)`. -/
def sensitivityUpdate (s : Sensitivity) (r : Nat) : Nat :=
  r &&& (255 ^^^ (0b11 <<< 4)) ||| (s.value <<< 4)

/-- `Lsm303dlhc::set_accel_sensitivity`: read-modify-write of `CTRL_REG4_A`. -/
def set_accel_sensitivity {ε : Type} (bus : Bus ε) (s : Sensitivity) :
    Except ε Unit × List Tx :=
  modify_accel_register bus .CTRL_REG4_A (sensitivityUpdate s)

/-- `Lsm303dlhc::temp`: two separate single-byte magnetometer reads of
`TEMP_OUT_L_M` then `TEMP_OUT_H_M`, assembled little-endian, cast to `i16`,
then arithmetically shifted right by 4. -/
def temp {ε : Type} (bus : Bus ε) : Except ε Int × List Tx :=
  match read_mag_register bus .TEMP_OUT_L_M with
  | (.error e, t1) => (.error e, t1)
  | (.ok temp_out_l, t1) =>
      match read_mag_register bus .TEMP_OUT_H_M with
      | (.error e, t2) => (.error e, t1 ++ t2)
      | (.ok temp_out_h, t2) =>
          (.ok (toI16 (temp_out_l + (temp_out_h <<< 8)) >>> 4), t1 ++ t2)

/-! ### Concrete buses used to instantiate the theorems -/

/-- A bus on which every transaction succeeds, reads returning zero bytes. -/
def okBus : Bus Unit where
  write_read := fun _ _ n => .ok (List.replicate n 0)
  write := fun _ _ => .ok ()

/-- A bus answering every read with the accelerometer example burst. -/
def accelBufBus : Bus Unit where
  write_read := fun _ _ _ => .ok [0x01, 0x00, 0x02, 0x00, 0x03, 0x00]
  write := fun _ _ => .ok ()

/-- A bus answering every read with the magnetometer example burst. -/
def magBufBus : Bus Unit where
  write_read := fun _ _ _ => .ok [0x00, 0x01, 0x00, 0x03, 0x00, 0x02]
  write := fun _ _ => .ok ()

/-- A bus answering the `TEMP_OUT_L_M` read with `0x00` and every other
read with `0x01`. -/
def tempBus : Bus Unit where
  write_read := fun _ sent _ => if sent = [0x32] then .ok [0x00] else .ok [0x01]
  write := fun _ _ => .ok ()

/-- A bus on which every transaction fails. -/
def failBus : Bus Unit where
  write_read := fun _ _ _ => .error ()
  write := fun _ _ => .error ()

/-! ### Helper lemmas -/

/-- For a low byte `lo < 256`, bitwise or against a value shifted left by 8
is plain addition: `lo | (hi << 8) = lo + (hi << 8)`. -/
theorem lo_or_hi_eq_add (lo hi : Nat) (h : lo < 256) :
    lo ||| (hi <<< 8) = lo + (hi <<< 8) := by
  have h2 : hi <<< 8 = 2 ^ 8 * hi := by
    rw [Nat.shiftLeft_eq]; ring
  rw [h2, Nat.lor_comm, ← Nat.mul_add_lt_is_or h, Nat.add_comm]

/-- Bit behaviour of the read-modify-write pattern
`r & !( (2^w - 1) << lo) | (c << lo)` on a byte `r`: bits in the field
`[lo, lo + w)` come from the code `c`, all other bits come from `r`. -/
theorem masked_update_testBit (r c lo w i : Nat) (hr : r < 256) (hc : c < 2 ^ w)
    (hlo : lo + w ≤ 8) :
    ((r &&& (255 ^^^ ((2 ^ w - 1) <<< lo))) ||| (c <<< lo)).testBit i =
      if lo ≤ i ∧ i < lo + w then c.testBit (i - lo) else r.testBit i := by
  have h255 : (255 : Nat) = 2 ^ 8 - 1 := by norm_num
  rw [h255]
  simp only [Nat.testBit_or, Nat.testBit_and, Nat.testBit_xor,
    Nat.testBit_shiftLeft, Nat.testBit_two_pow_sub_one]
  rcases Nat.lt_or_ge i 8 with h8 | h8
  · rcases Nat.lt_or_ge i lo with hl | hl
    · have hni : ¬ (lo ≤ i ∧ i < lo + w) := by omega
      have t2 : ¬ lo ≤ i := by omega
      simp [hni, h8, t2]
    · rcases Nat.lt_or_ge i (lo + w) with hw | hw
      · have hin : lo ≤ i ∧ i < lo + w := ⟨hl, hw⟩
        have t3 : i - lo < w := by omega
        simp [hin, h8, hl, t3]
      · have hni : ¬ (lo ≤ i ∧ i < lo + w) := by omega
        have t3 : ¬ i - lo < w := by omega
        have t4 : c.testBit (i - lo) = false :=
          Nat.testBit_lt_two_pow
            (lt_of_lt_of_le hc (Nat.pow_le_pow_right (by norm_num) (by omega)))
        simp [hni, h8, hl, hw, t3, t4]
  · have hni : ¬ (lo ≤ i ∧ i < lo + w) := by omega
    have t1 : ¬ i < 8 := by omega
    have t4 : c.testBit (i - lo) = false :=
      Nat.testBit_lt_two_pow
        (lt_of_lt_of_le hc (Nat.pow_le_pow_right (by norm_num) (by omega)))
    have t5 : r.testBit i = false := by
      refine Nat.testBit_lt_two_pow (lt_of_lt_of_le hr ?_)
      calc (256 : Nat) = 2 ^ 8 := by norm_num
        _ ≤ 2 ^ i := Nat.pow_le_pow_right (by norm_num) h8
    simp [hni, t1, t4, t5]

/-- Bit behaviour of `accelOdrUpdate`: bits 4–7 come from the rate code,
all other bits from the prior register value. -/
theorem accelOdrUpdate_testBit (odr : AccelOdr) (r i : Nat) (hr : r < 256) :
    (accelOdrUpdate odr r).testBit i =
      if 4 ≤ i ∧ i < 8 then odr.code.testBit (i - 4) else r.testBit i := by
  have hc : odr.code < 2 ^ 4 := by cases odr <;> decide
  have e : accelOdrUpdate odr r =
      (r &&& (255 ^^^ ((2 ^ 4 - 1) <<< 4))) ||| (odr.code <<< 4) := rfl
  rw [e, masked_update_testBit r odr.code 4 4 i hr hc (by norm_num)]

/-- Bit behaviour of `magOdrUpdate`: bits 2–4 come from the rate code, all
other bits from the prior register value. -/
theorem magOdrUpdate_testBit (odr : MagOdr) (r i : Nat) (hr : r < 256) :
    (magOdrUpdate odr r).testBit i =
      if 2 ≤ i ∧ i < 5 then odr.code.testBit (i - 2) else r.testBit i := by
  have hc : odr.code < 2 ^ 3 := by cases odr <;> decide
  have e : magOdrUpdate odr r =
      (r &&& (255 ^^^ ((2 ^ 3 - 1) <<< 2))) ||| (odr.code <<< 2) := rfl
  rw [e, masked_update_testBit r odr.code 2 3 i hr hc (by norm_num)]

/-- Bit behaviour of `sensitivityUpdate`: bits 4–5 come from the
sensitivity code, all other bits from the prior register value. -/
theorem sensitivityUpdate_testBit (s : Sensitivity) (r i : Nat) (hr : r < 256) :
    (sensitivityUpdate s r).testBit i =
      if 4 ≤ i ∧ i < 6 then s.value.testBit (i - 4) else r.testBit i := by
  have hc : s.value < 2 ^ 2 := by cases s <;> decide
  have e : sensitivityUpdate s r =
      (r &&& (255 ^^^ ((2 ^ 2 - 1) <<< 4))) ||| (s.value <<< 4) := rfl
  rw [e, masked_update_testBit r s.value 4 2 i hr hc (by norm_num)]

/-! ### Claim theorems -/

/-- C3: `accel` decodes a 6-byte burst read starting at `OUT_X_L_A`
little-endian per axis — `x = buffer[0] | buffer[1] << 8`,
`y = buffer[2] | buffer[3] << 8`, `z = buffer[4] | buffer[5] << 8` — each
reinterpreted as a signed 16-bit integer, and issues exactly that one burst
transaction. -/
theorem accel_decodes_little_endian {ε : Type} (bus : Bus ε)
    (b0 b1 b2 b3 b4 b5 : Nat)
    (hb0 : b0 < 256) (hb1 : b1 < 256) (hb2 : b2 < 256) (hb3 : b3 < 256)
    (hb4 : b4 < 256) (hb5 : b5 < 256)
    (h : bus.write_read accel.ADDRESS [accel.Register.OUT_X_L_A.addr ||| MULTI] 6 =
      .ok [b0, b1, b2, b3, b4, b5]) :
    accel bus =
      (.ok { x := toI16 (b0 ||| (b1 <<< 8)), y := toI16 (b2 ||| (b3 <<< 8)),
             z := toI16 (b4 ||| (b5 <<< 8)) },
       [Tx.writeRead accel.ADDRESS [accel.Register.OUT_X_L_A.addr ||| MULTI] 6]) := by
  simp [accel, read_accel_registers, h,
    lo_or_hi_eq_add _ _ hb0, lo_or_hi_eq_add _ _ hb2, lo_or_hi_eq_add _ _ hb4]

/-- C3 witness: the burst `[0x01,0x00,0x02,0x00,0x03,0x00]` decodes to
`{x := 1, y := 2, z := 3}`. -/
theorem accel_decodes_little_endian_witness :
    accel accelBufBus =
      (.ok { x := 1, y := 2, z := 3 },
       [Tx.writeRead accel.ADDRESS [accel.Register.OUT_X_L_A.addr ||| MULTI] 6]) := by
  rw [accel_decodes_little_endian accelBufBus 1 0 2 0 3 0 (by decide) (by decide)
    (by decide) (by decide) (by decide) (by decide) rfl]
  decide

/-- C2: `mag` decodes a 6-byte burst read starting at `OUT_X_H_M` with the
chip's byte order `X_H, X_L, Z_H, Z_L, Y_H, Y_L`:
`x = buffer[1] | buffer[0] << 8`, `z = buffer[3] | buffer[2] << 8`,
`y = buffer[5] | buffer[4] << 8`, each reinterpreted as a signed 16-bit
integer, and issues exactly that one burst transaction. -/
theorem mag_decodes_reversed {ε : Type} (bus : Bus ε)
    (b0 b1 b2 b3 b4 b5 : Nat)
    (hb0 : b0 < 256) (hb1 : b1 < 256) (hb2 : b2 < 256) (hb3 : b3 < 256)
    (hb4 : b4 < 256) (hb5 : b5 < 256)
    (h : bus.write_read mag.ADDRESS [mag.Register.OUT_X_H_M.addr] 6 =
      .ok [b0, b1, b2, b3, b4, b5]) :
    mag bus =
      (.ok { x := toI16 (b1 ||| (b0 <<< 8)), y := toI16 (b5 ||| (b4 <<< 8)),
             z := toI16 (b3 ||| (b2 <<< 8)) },
       [Tx.writeRead mag.ADDRESS [mag.Register.OUT_X_H_M.addr] 6]) := by
  simp [mag, read_mag_registers, h,
    lo_or_hi_eq_add _ _ hb1, lo_or_hi_eq_add _ _ hb3, lo_or_hi_eq_add _ _ hb5]

/-- C2 witness: the burst `[0x00,0x01,0x00,0x03,0x00,0x02]` decodes to
`{x := 1, y := 2, z := 3}`. -/
theorem mag_decodes_reversed_witness :
    mag magBufBus =
      (.ok { x := 1, y := 2, z := 3 },
       [Tx.writeRead mag.ADDRESS [mag.Register.OUT_X_H_M.addr] 6]) := by
  rw [mag_decodes_reversed magBufBus 0 1 0 3 0 2 (by decide) (by decide)
    (by decide) (by decide) (by decide) (by decide) rfl]
  decide

/-- C4: `temp` issues exactly two single-byte reads, of `TEMP_OUT_L_M` then
`TEMP_OUT_H_M` (never a burst across the pair), assembles
`low | high << 8` reinterpreted as signed 16-bit, and arithmetic-shifts the
result right by 4 (`>>>` on `Int` is the sign-preserving shift, equal to
floor division by 16 here). -/
theorem temp_two_single_reads {ε : Type} (bus : Bus ε) (lo hi : Nat)
    (hlo : lo < 256) (hhi : hi < 256)
    (hL : bus.write_read mag.ADDRESS [mag.Register.TEMP_OUT_L_M.addr] 1 = .ok [lo])
    (hH : bus.write_read mag.ADDRESS [mag.Register.TEMP_OUT_H_M.addr] 1 = .ok [hi]) :
    temp bus =
      (.ok (toI16 (lo ||| (hi <<< 8)) >>> 4),
       [Tx.writeRead mag.ADDRESS [mag.Register.TEMP_OUT_L_M.addr] 1,
        Tx.writeRead mag.ADDRESS [mag.Register.TEMP_OUT_H_M.addr] 1]) := by
  simp [temp, read_mag_register, read_mag_registers, Except.map, hL, hH,
    lo_or_hi_eq_add _ _ hlo]

/-- C4 witness: `TEMP_OUT_L = 0x00`, `TEMP_OUT_H = 0x01` assembles to 256
and shifts to 16, via two single-byte reads. -/
theorem temp_two_single_reads_witness :
    temp tempBus =
      (.ok 16,
       [Tx.writeRead mag.ADDRESS [mag.Register.TEMP_OUT_L_M.addr] 1,
        Tx.writeRead mag.ADDRESS [mag.Register.TEMP_OUT_H_M.addr] 1]) := by
  rw [temp_two_single_reads tempBus 0 1 (by decide) (by decide) rfl rfl]
  decide

/-- C1 counterexample: a single-byte accelerometer read still sets the high
bit of the address byte.  Reading 1 byte from `OUT_X_L_A` (address 0x28)
sends the byte 0xA8, whose bit 7 is set, although only 1 byte (not more
than 1) is requested — refuting "single-byte reads never set it". -/
theorem accel_single_byte_read_sets_high_bit :
    (read_accel_register okBus accel.Register.OUT_X_L_A).2 =
      [Tx.writeRead accel.ADDRESS [0xA8] 1] ∧
    Nat.testBit 0xA8 7 = true ∧ ¬ (1 : Nat) > 1 := by
  decide

/-- C1 amended: every accelerometer read, for every requested byte count
`n` — including `n = 1` — sends the address byte `reg.addr() | 0x80`; the
high bit is always set, not only when more than 1 byte is requested. -/
theorem accel_read_always_sets_high_bit {ε : Type} (bus : Bus ε) (n : Nat)
    (reg : accel.Register) :
    (read_accel_registers bus n reg).2 =
      [Tx.writeRead accel.ADDRESS [reg.addr ||| MULTI] n] ∧
    Nat.testBit (reg.addr ||| MULTI) 7 = true := by
  refine ⟨rfl, ?_⟩
  have h7 : Nat.testBit MULTI 7 = true := by decide
  simp [Nat.testBit_or, h7]

/-- C5: `new` issues, in order, the three configuration writes —
accelerometer `CTRL_REG1_A := 0b01110111`, magnetometer `MR_REG_M := 0b00`,
magnetometer `CRA_REG_M := 0b10001000` — and returns the driver exactly
when all three succeed; a failing write short-circuits the sequence (no
later write is issued) and its transport error is returned unchanged. -/
theorem new_three_writes_in_order {ε : Type} (bus : Bus ε) :
    (bus.write accel.ADDRESS [0x20, 0b01110111] = .ok () ∧
     bus.write mag.ADDRESS [0x02, 0b00] = .ok () ∧
     bus.write mag.ADDRESS [0x00, 0b10001000] = .ok () →
      new bus = (.ok (),
        [Tx.write accel.ADDRESS [0x20, 0b01110111],
         Tx.write mag.ADDRESS [0x02, 0b00],
         Tx.write mag.ADDRESS [0x00, 0b10001000]])) ∧
    (∀ e, bus.write accel.ADDRESS [0x20, 0b01110111] = .error e →
      new bus = (.error e, [Tx.write accel.ADDRESS [0x20, 0b01110111]])) ∧
    (∀ e, bus.write accel.ADDRESS [0x20, 0b01110111] = .ok () →
      bus.write mag.ADDRESS [0x02, 0b00] = .error e →
      new bus = (.error e,
        [Tx.write accel.ADDRESS [0x20, 0b01110111],
         Tx.write mag.ADDRESS [0x02, 0b00]])) ∧
    (∀ e, bus.write accel.ADDRESS [0x20, 0b01110111] = .ok () →
      bus.write mag.ADDRESS [0x02, 0b00] = .ok () →
      bus.write mag.ADDRESS [0x00, 0b10001000] = .error e →
      new bus = (.error e,
        [Tx.write accel.ADDRESS [0x20, 0b01110111],
         Tx.write mag.ADDRESS [0x02, 0b00],
         Tx.write mag.ADDRESS [0x00, 0b10001000]])) ∧
    ((new bus).1 = .ok () ↔
      bus.write accel.ADDRESS [0x20, 0b01110111] = .ok () ∧
      bus.write mag.ADDRESS [0x02, 0b00] = .ok () ∧
      bus.write mag.ADDRESS [0x00, 0b10001000] = .ok ()) := by
  have hv : ((0b0001000 : Nat) ||| (1 <<< 7)) = 0b10001000 := by decide
  refine ⟨?_, ?_, ?_, ?_, ?_⟩
  · rintro ⟨h1, h2, h3⟩
    simp [new, write_accel_register, write_mag_register, accel.Register.addr,
      mag.Register.addr, hv, h1, h2, h3]
  · intro e h1
    simp [new, write_accel_register, write_mag_register, accel.Register.addr,
      mag.Register.addr, hv, h1]
  · intro e h1 h2
    simp [new, write_accel_register, write_mag_register, accel.Register.addr,
      mag.Register.addr, hv, h1, h2]
  · intro e h1 h2 h3
    simp [new, write_accel_register, write_mag_register, accel.Register.addr,
      mag.Register.addr, hv, h1, h2, h3]
  · rcases h1 : bus.write accel.ADDRESS [0x20, 0b01110111] with e | u
    · simp [new, write_accel_register, write_mag_register, accel.Register.addr,
        mag.Register.addr, hv, h1]
    · cases u
      rcases h2 : bus.write mag.ADDRESS [0x02, 0b00] with e | u
      · simp [new, write_accel_register, write_mag_register, accel.Register.addr,
          mag.Register.addr, hv, h1, h2]
      · cases u
        rcases h3 : bus.write mag.ADDRESS [0x00, 0b10001000] with e | u
        · simp [new, write_accel_register, write_mag_register, accel.Register.addr,
            mag.Register.addr, hv, h1, h2, h3]
        · cases u
          simp [new, write_accel_register, write_mag_register, accel.Register.addr,
            mag.Register.addr, hv, h1, h2, h3]

/-- C5 witness: on a bus where every write succeeds, `new` returns the
driver and issues exactly the three configuration writes, in order. -/
theorem new_three_writes_in_order_witness :
    new okBus = (.ok (),
      [Tx.write accel.ADDRESS [0x20, 0b01110111],
       Tx.write mag.ADDRESS [0x02, 0b00],
       Tx.write mag.ADDRESS [0x00, 0b10001000]]) :=
  (new_three_writes_in_order okBus).1 ⟨rfl, rfl, rfl⟩

/-- C7: each `modify` operation issues exactly one read transaction
followed by exactly one write transaction, in that order, on its target
register, writing the transform of the byte it read; when the read fails,
the error is returned and no write is issued.  Stated for both
`modify_accel_register` and `modify_mag_register`. -/
theorem modify_read_then_write {ε : Type} (bus : Bus ε) (areg : accel.Register)
    (mreg : mag.Register) (f g : Nat → Nat) :
    (∀ l, bus.write_read accel.ADDRESS [areg.addr ||| MULTI] 1 = .ok l →
      modify_accel_register bus areg f =
        (bus.write accel.ADDRESS [areg.addr, f (l.getD 0 0)],
         [Tx.writeRead accel.ADDRESS [areg.addr ||| MULTI] 1,
          Tx.write accel.ADDRESS [areg.addr, f (l.getD 0 0)]])) ∧
    (∀ e, bus.write_read accel.ADDRESS [areg.addr ||| MULTI] 1 = .error e →
      modify_accel_register bus areg f =
        (.error e, [Tx.writeRead accel.ADDRESS [areg.addr ||| MULTI] 1])) ∧
    (∀ l, bus.write_read mag.ADDRESS [mreg.addr] 1 = .ok l →
      modify_mag_register bus mreg g =
        (bus.write mag.ADDRESS [mreg.addr, g (l.getD 0 0)],
         [Tx.writeRead mag.ADDRESS [mreg.addr] 1,
          Tx.write mag.ADDRESS [mreg.addr, g (l.getD 0 0)]])) ∧
    (∀ e, bus.write_read mag.ADDRESS [mreg.addr] 1 = .error e →
      modify_mag_register bus mreg g =
        (.error e, [Tx.writeRead mag.ADDRESS [mreg.addr] 1])) := by
  refine ⟨?_, ?_, ?_, ?_⟩
  · intro l h
    simp [modify_accel_register, read_accel_register, read_accel_registers,
      write_accel_register, Except.map, h]
  · intro e h
    simp [modify_accel_register, read_accel_register, read_accel_registers,
      Except.map, h]
  · intro l h
    simp [modify_mag_register, read_mag_register, read_mag_registers,
      write_mag_register, Except.map, h]
  · intro e h
    simp [modify_mag_register, read_mag_register, read_mag_registers,
      Except.map, h]

/-- C7 witness: on `okBus` (the read returns `[0]`), modifying
`CTRL_REG1_A` with the identity transform issues the read of `0xA0`
followed by the write `[0x20, 0]` and nothing else. -/
theorem modify_read_then_write_witness :
    modify_accel_register okBus accel.Register.CTRL_REG1_A id =
      (.ok (), [Tx.writeRead accel.ADDRESS [0xA0] 1,
                Tx.write accel.ADDRESS [0x20, 0]]) := by
  rw [(modify_read_then_write okBus accel.Register.CTRL_REG1_A
    mag.Register.CRA_REG_M id id).1 [0] rfl]
  decide

/-- C6: each setter writes back the register value it read with only its
own bit field replaced by the enumeration value's code and every other bit
unchanged: `accel_odr` replaces bits 4–7 of `CTRL_REG1_A`, `mag_odr`
replaces bits 2–4 of `CRA_REG_M`, and `set_accel_sensitivity` replaces
bits 4–5 of `CTRL_REG4_A`.  For each setter the theorem gives (a) the
exact read-then-write trace writing the update of the byte read, (b) bits
inside the field equal the code's bits, (c) bits outside the field equal
the prior register's bits. -/
theorem setters_replace_only_their_field {ε : Type} (bus : Bus ε)
    (r : Nat) (hr : r < 256) (odr : AccelOdr) (modr : MagOdr) (s : Sensitivity) :
    ((bus.write_read accel.ADDRESS [accel.Register.CTRL_REG1_A.addr ||| MULTI] 1 =
        .ok [r] →
      (accel_odr bus odr).2 =
        [Tx.writeRead accel.ADDRESS [accel.Register.CTRL_REG1_A.addr ||| MULTI] 1,
         Tx.write accel.ADDRESS
           [accel.Register.CTRL_REG1_A.addr, accelOdrUpdate odr r]]) ∧
     (∀ i, 4 ≤ i → i < 8 →
        (accelOdrUpdate odr r).testBit i = odr.code.testBit (i - 4)) ∧
     (∀ i, ¬ (4 ≤ i ∧ i < 8) →
        (accelOdrUpdate odr r).testBit i = r.testBit i)) ∧
    ((bus.write_read mag.ADDRESS [mag.Register.CRA_REG_M.addr] 1 = .ok [r] →
      (mag_odr bus modr).2 =
        [Tx.writeRead mag.ADDRESS [mag.Register.CRA_REG_M.addr] 1,
         Tx.write mag.ADDRESS [mag.Register.CRA_REG_M.addr, magOdrUpdate modr r]]) ∧
     (∀ i, 2 ≤ i → i < 5 →
        (magOdrUpdate modr r).testBit i = modr.code.testBit (i - 2)) ∧
     (∀ i, ¬ (2 ≤ i ∧ i < 5) →
        (magOdrUpdate modr r).testBit i = r.testBit i)) ∧
    ((bus.write_read accel.ADDRESS [accel.Register.CTRL_REG4_A.addr ||| MULTI] 1 =
        .ok [r] →
      (set_accel_sensitivity bus s).2 =
        [Tx.writeRead accel.ADDRESS [accel.Register.CTRL_REG4_A.addr ||| MULTI] 1,
         Tx.write accel.ADDRESS
           [accel.Register.CTRL_REG4_A.addr, sensitivityUpdate s r]]) ∧
     (∀ i, 4 ≤ i → i < 6 →
        (sensitivityUpdate s r).testBit i = s.value.testBit (i - 4)) ∧
     (∀ i, ¬ (4 ≤ i ∧ i < 6) →
        (sensitivityUpdate s r).testBit i = r.testBit i)) := by
  refine ⟨⟨?_, ?_, ?_⟩, ⟨?_, ?_, ?_⟩, ⟨?_, ?_, ?_⟩⟩
  · intro h
    have := (modify_read_then_write bus accel.Register.CTRL_REG1_A
      mag.Register.CRA_REG_M (accelOdrUpdate odr) id).1 [r] h
    simp [accel_odr, this]
  · intro i h4 h8
    rw [accelOdrUpdate_testBit odr r i hr, if_pos ⟨h4, h8⟩]
  · intro i hout
    rw [accelOdrUpdate_testBit odr r i hr, if_neg hout]
  · intro h
    have := (modify_read_then_write bus accel.Register.CTRL_REG1_A
      mag.Register.CRA_REG_M id (magOdrUpdate modr)).2.2.1 [r] h
    simp [mag_odr, this]
  · intro i h2 h5
    rw [magOdrUpdate_testBit modr r i hr, if_pos ⟨h2, h5⟩]
  · intro i hout
    rw [magOdrUpdate_testBit modr r i hr, if_neg hout]
  · intro h
    have := (modify_read_then_write bus accel.Register.CTRL_REG4_A
      mag.Register.CRA_REG_M (sensitivityUpdate s) id).1 [r] h
    simp [set_accel_sensitivity, this]
  · intro i h4 h6
    rw [sensitivityUpdate_testBit s r i hr, if_pos ⟨h4, h6⟩]
  · intro i hout
    rw [sensitivityUpdate_testBit s r i hr, if_neg hout]

/-- C6 witness: at prior value `r = 0` (the byte `okBus` reads back),
`accel_odr` with rate `Hz1` issues the read of `CTRL_REG1_A` followed by
the single write of the updated byte. -/
theorem setters_replace_only_their_field_witness :
    (accel_odr okBus AccelOdr.Hz1).2 =
      [Tx.writeRead accel.ADDRESS [accel.Register.CTRL_REG1_A.addr ||| MULTI] 1,
       Tx.write accel.ADDRESS
         [accel.Register.CTRL_REG1_A.addr, accelOdrUpdate AccelOdr.Hz1 0]] :=
  (setters_replace_only_their_field okBus 0 (by decide) AccelOdr.Hz1
    MagOdr.Hz0_75 Sensitivity.G1).1.1 rfl

/-- C8 counterexample: the accelerometer register map exposes 30 symbols,
not 37 as claimed. -/
theorem accel_register_map_has_30_symbols :
    Fintype.card accel.Register = 30 ∧ Fintype.card accel.Register ≠ 37 := by
  constructor <;> decide

/-- C8 amended: the sub-device addresses are exactly accelerometer =
0b0011001 and magnetometer = 0b0011110; every transaction issued by each
engine primitive carries its sub-device's address; the accelerometer
register map exposes 30 symbols (not 37), each bound to a distinct fixed
one-byte address — the address set is exactly 0x20–0x3D — and likewise the
magnetometer map is injective with address set 0x00–0x0C plus 0x31 and
0x32. -/
theorem bus_addresses_and_register_map {ε : Type} (bus : Bus ε)
    (n b : Nat) (areg : accel.Register) (mreg : mag.Register) :
    accel.ADDRESS = 0b0011001 ∧ mag.ADDRESS = 0b0011110 ∧
    (∀ t ∈ (read_accel_registers bus n areg).2, t.dev = accel.ADDRESS) ∧
    (∀ t ∈ (write_accel_register bus areg b).2, t.dev = accel.ADDRESS) ∧
    (∀ t ∈ (read_mag_registers bus n mreg).2, t.dev = mag.ADDRESS) ∧
    (∀ t ∈ (write_mag_register bus mreg b).2, t.dev = mag.ADDRESS) ∧
    Fintype.card accel.Register = 30 ∧
    Function.Injective accel.Register.addr ∧
    Finset.image accel.Register.addr Finset.univ = Finset.Icc 0x20 0x3D ∧
    Fintype.card mag.Register = 15 ∧
    Function.Injective mag.Register.addr ∧
    Finset.image mag.Register.addr Finset.univ =
      Finset.Icc 0x00 0x0C ∪ {0x31, 0x32} := by
  refine ⟨rfl, rfl, ?_, ?_, ?_, ?_, by decide, by decide, by decide, by decide,
    by decide, by decide⟩
  · intro t ht
    simp [read_accel_registers] at ht
    simp [ht, Tx.dev]
  · intro t ht
    simp [write_accel_register] at ht
    simp [ht, Tx.dev]
  · intro t ht
    simp [read_mag_registers] at ht
    simp [ht, Tx.dev]
  · intro t ht
    simp [write_mag_register] at ht
    simp [ht, Tx.dev]

/-- C9: the three enumeration-to-code maps are total functions, injective,
and fit their field widths: the 7 `AccelOdr` values map to 7 distinct 4-bit
codes, the 8 `MagOdr` values to 8 distinct 3-bit codes, and the 4
`Sensitivity` values to 4 distinct 2-bit codes. -/
theorem enum_codes_total_injective_in_width :
    Fintype.card AccelOdr = 7 ∧ Function.Injective AccelOdr.code ∧
    (∀ a : AccelOdr, a.code < 2 ^ 4) ∧
    Fintype.card MagOdr = 8 ∧ Function.Injective MagOdr.code ∧
    (∀ m : MagOdr, m.code < 2 ^ 3) ∧
    Fintype.card Sensitivity = 4 ∧ Function.Injective Sensitivity.value ∧
    (∀ s : Sensitivity, s.value < 2 ^ 2) := by
  refine ⟨by decide, by decide, by decide, by decide, by decide, by decide,
    by decide, by decide, by decide⟩

/-- C10: every register write the driver issues is exactly the two bytes
[register address, value] with the address byte unmodified; every
magnetometer read likewise sends the bare register address byte; no
register address has its high bit set, so the high bit is never set on
writes; only accelerometer reads alter the address byte (by or-ing in
`MULTI`). -/
theorem writes_and_mag_reads_send_raw_address {ε : Type} (bus : Bus ε)
    (n b : Nat) (areg : accel.Register) (mreg : mag.Register) :
    (write_accel_register bus areg b).2 =
      [Tx.write accel.ADDRESS [areg.addr, b]] ∧
    (write_mag_register bus mreg b).2 =
      [Tx.write mag.ADDRESS [mreg.addr, b]] ∧
    (read_mag_registers bus n mreg).2 =
      [Tx.writeRead mag.ADDRESS [mreg.addr] n] ∧
    (∀ r : accel.Register, r.addr.testBit 7 = false) ∧
    (∀ r : mag.Register, r.addr.testBit 7 = false) ∧
    (read_accel_registers bus n areg).2 =
      [Tx.writeRead accel.ADDRESS [areg.addr ||| MULTI] n] :=
  ⟨rfl, rfl, rfl, by decide, by decide, rfl⟩

end Lsm303dlhc
